import Mathlib

/-!
# Verification of `btif/src/btif_config.c`

Shallow embedding of the debounced, persistent configuration cache in
`btif/src/btif_config.c`.  The in-memory store is a list of sections, each a
named list of key/value entries (values are stored as text).  The store
primitives (`config_has_section`, `config_has_key`, `config_get_string`,
`config_set_string`, `config_remove_key`, `config_remove_section`, iteration),
the address classifier `str_is_bdaddr`, and the alarm primitive live in other
files of the repository (`osi/src/config.c`, `btif/src/btif_util.c`,
`osi/src/alarm.c`); they are modelled from the specification where marked.
All `btif_config_*` functions are translated directly from the given source.
Machine pointers, the pthread lock and on-disk serialization are abstracted:
a "flush" is modelled by the pair (store after the operation, store image
handed to `config_save`).
-/

set_option maxRecDepth 10000

namespace BtifConfig

/-- A section of the store: a name and an ordered list of key/value entries.
Mirrors `config.c`'s `section_t` as described by the spec's data model. -/
structure ConfigSection where
  name : String
  entries : List (String × String)
deriving DecidableEq

/-- The in-memory store: an ordered list of sections (spec section 3). -/
structure Config where
  sections : List ConfigSection
deriving DecidableEq

/-- The names of the store's sections, in store order. -/
def sectionNames (config : Config) : List String :=
  config.sections.map (fun s => s.name)

/-- Modelled from the spec: entry lookup inside a section (`config.c`'s
`entry_find` walks the entry list and returns the first entry whose key
matches). -/
def entryGet : List (String × String) → String → Option String
  | [], _ => none
  | e :: rest, key => if e.1 = key then some e.2 else entryGet rest key

/-- Modelled from the spec: create-or-update of an entry (`config.c`'s
`config_set_string`: update the first entry with the key, else append). -/
def setEntry : List (String × String) → String → String → List (String × String)
  | [], key, v => [(key, v)]
  | e :: rest, key, v => if e.1 = key then (key, v) :: rest else e :: setEntry rest key v

/-- Modelled from the spec: removal of the first entry with the given key. -/
def removeEntry : List (String × String) → String → List (String × String)
  | [], _ => []
  | e :: rest, key => if e.1 = key then rest else e :: removeEntry rest key

/-- Modelled from the spec: section lookup (`config.c`'s `section_find`
returns the first section whose name matches). -/
def sectionFind : List ConfigSection → String → Option ConfigSection
  | [], _ => none
  | s :: rest, sec => if s.name = sec then some s else sectionFind rest sec

/-- Modelled from the spec: create-or-update of a key in a section; a missing
section is appended at the end of the store, preserving section order. -/
def setSection : List ConfigSection → String → String → String → List ConfigSection
  | [], sec, key, v => [⟨sec, [(key, v)]⟩]
  | s :: rest, sec, key, v =>
      if s.name = sec then ⟨s.name, setEntry s.entries key v⟩ :: rest
      else s :: setSection rest sec key v

/-- Modelled from the spec: `config_remove_section` removes the first section
with the given name. -/
def removeSectionFirst : List ConfigSection → String → List ConfigSection
  | [], _ => []
  | s :: rest, sec => if s.name = sec then rest else s :: removeSectionFirst rest sec

/-- Modelled from the spec: removal of a key inside the first section with the
given name. -/
def removeKeyFirst : List ConfigSection → String → String → List ConfigSection
  | [], _, _ => []
  | s :: rest, sec, key =>
      if s.name = sec then ⟨s.name, removeEntry s.entries key⟩ :: rest
      else s :: removeKeyFirst rest sec key

/-- Modelled from the spec: `config_has_section`. -/
def config_has_section (config : Config) (sec : String) : Bool :=
  (sectionFind config.sections sec).isSome

/-- Modelled from the spec: `config_has_key`. -/
def config_has_key (config : Config) (sec key : String) : Bool :=
  match sectionFind config.sections sec with
  | none => false
  | some s => (entryGet s.entries key).isSome

/-- Modelled from the spec: `config_get_string` with a `NULL` default,
returned as `Option`. -/
def config_get_string (config : Config) (sec key : String) : Option String :=
  match sectionFind config.sections sec with
  | none => none
  | some s => entryGet s.entries key

/-- Modelled from the spec: `config_set_string` (create-or-update). -/
def config_set_string (config : Config) (sec key v : String) : Config :=
  ⟨setSection config.sections sec key v⟩

/-- Modelled from the spec: `config_get_int` parses the stored text as an
integer, falling back to the supplied default. -/
def config_get_int (config : Config) (sec key : String) (defVal : Int) : Int :=
  match config_get_string config sec key with
  | none => defVal
  | some s => (s.toInt?).getD defVal

/-- Modelled from the spec: `config_set_int` stores the decimal rendering. -/
def config_set_int (config : Config) (sec key : String) (v : Int) : Config :=
  config_set_string config sec key (toString v)

/-- Modelled from the spec: `config_remove_key`, true iff an entry existed. -/
def config_remove_key (config : Config) (sec key : String) : Bool × Config :=
  (config_has_key config sec key, ⟨removeKeyFirst config.sections sec key⟩)

/-- C's `isxdigit`: decimal digits and the hex letters of either case. -/
def isxdigit (c : Char) : Bool :=
  ('0' ≤ c && c ≤ '9') || ('a' ≤ c && c ≤ 'f') || ('A' ≤ c && c ≤ 'F')

/-- Character pattern of a hardware address: exactly 17 characters, a colon
at every third position (indices 2, 5, 8, 11, 14), hex digits elsewhere. -/
def isBdAddrChars : List Char → Bool
  | [a1, a2, c1, b1, b2, c2, d1, d2, c3, e1, e2, c4, f1, f2, c5, g1, g2] =>
      isxdigit a1 && isxdigit a2 && c1 == ':' &&
      isxdigit b1 && isxdigit b2 && c2 == ':' &&
      isxdigit d1 && isxdigit d2 && c3 == ':' &&
      isxdigit e1 && isxdigit e2 && c4 == ':' &&
      isxdigit f1 && isxdigit f2 && c5 == ':' &&
      isxdigit g1 && isxdigit g2
  | _ => false

/-- Modelled from the spec: `str_is_bdaddr` (in `btif_util.c`, outside the
given source).  A device-section name matches the colon-delimited
hardware-address pattern of 6 hex byte-pairs, e.g. "aa:bb:cc:dd:ee:ff". -/
def str_is_bdaddr (s : String) : Bool :=
  isBdAddrChars s.data

/-- `btif_config_has_key(section, key)`: the leading `section` argument is
`UNUSED_ATTR`; the function checks `config_has_section(config, key)`. -/
def btif_config_has_key (sectionArg key : String) (config : Config) : Bool :=
  config_has_section config key

/-- `btif_config_exist(section, key, name)`: leading argument unused. -/
def btif_config_exist (sectionArg key name : String) (config : Config) : Bool :=
  config_has_key config key name

/-- `btif_config_get_int`: returns whether the key exists; `*value` is only
overwritten when it does (`v0` is the caller's prior `*value`). -/
def btif_config_get_int (sectionArg key name : String) (v0 : Int) (config : Config) :
    Bool × Int :=
  if config_has_key config key name then (true, config_get_int config key name v0)
  else (false, v0)

/-- `btif_config_set_int`: always succeeds. -/
def btif_config_set_int (sectionArg key name : String) (v : Int) (config : Config) :
    Bool × Config :=
  (true, config_set_int config key name v)

/-- BSD `strlcpy` as used by `btif_config_get_str`: with capacity 0 the
buffer is untouched; otherwise at most `cap - 1` characters are copied and
the result is NUL-terminated. -/
def strlcpyBuf (buf0 src : String) (cap : Nat) : String :=
  if cap = 0 then buf0 else ⟨src.data.take (cap - 1)⟩

/-- `btif_config_get_str`: looks up the stored string; if absent returns
false, else copies it into the caller's buffer (prior contents `buf0`,
capacity `cap`) with `strlcpy` and sets `*length` to `strlen` of the buffer.
Result: `none` for not-found, otherwise the buffer contents and `*length`. -/
def btif_config_get_str (sectionArg key name : String) (buf0 : String) (cap : Nat)
    (config : Config) : Option (String × Nat) :=
  match config_get_string config key name with
  | none => none
  | some stored =>
      let buf := strlcpyBuf buf0 stored cap
      some (buf, buf.length)

/-- `btif_config_set_str`: always succeeds. -/
def btif_config_set_str (sectionArg key name v : String) (config : Config) :
    Bool × Config :=
  (true, config_set_string config key name v)

/-- The lookup table "0123456789abcdef" of `btif_config_set_bin`. -/
def hexChar (n : Nat) : Char :=
  "0123456789abcdef".data.getD n '0'

/-- The two characters `btif_config_set_bin` emits for one byte:
`lookup[(b >> 0) & 0x0F]` then `lookup[(b >> 4) & 0x0F]` — the LOW nibble
first, then the high nibble. -/
def encodeByte (b : Nat) : List Char :=
  [hexChar (b % 16), hexChar (b / 16 % 16)]

/-- The text `btif_config_set_bin` builds for a byte sequence. -/
def encodeHex (value : List Nat) : String :=
  ⟨(value.map encodeByte).flatten⟩

/-- `btif_config_set_bin`: encodes the bytes as text and stores the text.
(The `calloc`-failure path is not modelled; allocation failure is out of
scope for the shallow embedding.) -/
def btif_config_set_bin (sectionArg key name : String) (value : List Nat)
    (config : Config) : Bool × Config :=
  (true, config_set_string config key name (encodeHex value))

/-- Numeric value of a hex digit as `sscanf %x` reads it. -/
def hexVal (c : Char) : Nat :=
  if '0' ≤ c && c ≤ '9' then c.toNat - '0'.toNat
  else if 'a' ≤ c && c ≤ 'f' then c.toNat - 'a'.toNat + 10
  else if 'A' ≤ c && c ≤ 'F' then c.toNat - 'A'.toNat + 10
  else 0

/-- The decode loop of `btif_config_get_bin`: `sscanf(p, "%02hhx", &out)`
on each successive digit pair — the FIRST digit supplies the high nibble,
the second the low nibble (standard positional order). -/
def decodeHexPairs : List Char → List Nat
  | c1 :: c2 :: rest => (16 * hexVal c1 + hexVal c2) :: decodeHexPairs rest
  | _ => []

/-- `btif_config_get_bin`: fails if the entry is absent, the stored text has
odd length, the caller capacity `cap` (the incoming `*length`) is below half
the text length, or any character is not a hex digit; otherwise decodes. -/
def btif_config_get_bin (sectionArg key name : String) (cap : Nat) (config : Config) :
    Option (List Nat) :=
  match config_get_string config key name with
  | none => none
  | some s =>
      if s.data.length % 2 ≠ 0 ∨ cap < s.data.length / 2 then none
      else if s.data.all isxdigit then some (decodeHexPairs s.data)
      else none

/-- `btif_config_get_bin_length`: 0 if absent or of odd length, else half the
stored text's length.  (The source checks only the length's parity.) -/
def btif_config_get_bin_length (sectionArg key name : String) (config : Config) : Nat :=
  match config_get_string config key name with
  | none => 0
  | some s => if s.data.length % 2 ≠ 0 then 0 else s.data.length / 2

/-- `btif_config_remove`: leading argument unused; removes `name` from the
section named `key`. -/
def btif_config_remove (sectionArg key name : String) (config : Config) :
    Bool × Config :=
  config_remove_key config key name

/-- `CACHE_MAX` of `timer_config_save`. -/
def CACHE_MAX : Nat := 256

/-- The credential keys whose presence protects a device section from GC. -/
def bondedKeys : List String :=
  ["LinkKey", "LE_KEY_PENC", "LE_KEY_PID", "LE_KEY_PCSRK", "LE_KEY_LENC", "LE_KEY_LCSRK"]

/-- The six-way `config_has_key` disjunction of `timer_config_save`. -/
def sectionIsBonded (config : Config) (sec : String) : Bool :=
  bondedKeys.any (fun k => config_has_key config sec k)

/-- One iteration of `timer_config_save`'s scan loop: the accumulator is the
`keys` array (capped at `CACHE_MAX`) and the `total_candidates` counter. -/
def gcStep (config : Config) (acc : List String × Nat) (snode : ConfigSection) :
    List String × Nat :=
  if ¬ str_is_bdaddr snode.name = true then acc
  else if sectionIsBonded config snode.name = true then acc
  else ((if acc.1.length < CACHE_MAX then acc.1 ++ [snode.name] else acc.1), acc.2 + 1)

/-- The full scan of `timer_config_save` over the store's sections. -/
def gcScan (config : Config) : List String × Nat :=
  config.sections.foldl (gcStep config) ([], 0)

/-- The removal loop `while (num_keys > 0) config_remove_section(config,
keys[--num_keys])`: tracked names are removed last-to-first. -/
def removeTracked (config : Config) (keys : List String) : Config :=
  keys.foldr (fun k c => ⟨removeSectionFirst c.sections k⟩) config

/-- The store `timer_config_save` holds when it reaches `config_save`:
tracked candidates are removed only when `total_candidates > CACHE_MAX * 2`. -/
def timerStore (config : Config) : Config :=
  if (gcScan config).2 > CACHE_MAX * 2 then removeTracked config (gcScan config).1
  else config

/-- `timer_config_save` (the settle-timer callback): runs the GC scan and
conditional eviction under the lock, then `config_save`.  Result: the store
after the callback and the image handed to `config_save`. -/
def timer_config_save (config : Config) : Config × Config :=
  (timerStore config, timerStore config)

/-- `btif_config_flush`: cancels the alarm, then `config_save(config, ...)`
under the lock — the store is serialized exactly as it is, with no GC.
Result: the store after the call and the image handed to `config_save`. -/
def btif_config_flush (config : Config) : Config × Config :=
  (config, config)

/-- `CONFIG_SETTLE_PERIOD_MS`. -/
def CONFIG_SETTLE_PERIOD_MS : Nat := 3000

/-- Modelled from the spec: the alarm primitive (`osi/src/alarm.c`, outside
the given source) keeps at most one outstanding deadline; `btif_config_save`
calls `alarm_set`, which cancels any pending deadline and schedules
`timer_config_save` a full settle period after the call.  Given the
increasing times of `save()` calls, a pending deadline `t + 3000` fires
(one flush) iff the next `save()` comes after it; the last deadline always
fires.  This function counts the flushes such a call sequence produces. -/
def debounceFlushCount : List Nat → Nat
  | [] => 0
  | [_] => 1
  | t :: t2 :: rest =>
      (if t2 ≤ t + CONFIG_SETTLE_PERIOD_MS then 0 else 1) +
        debounceFlushCount (t2 :: rest)

/-- The GC scan's candidate test, phrased on a section: a device-section name
with none of the credential keys (key presence looked up through the store,
exactly as the source does). -/
def candFilter (config : Config) (s : ConfigSection) : Bool :=
  str_is_bdaddr s.name && !(sectionIsBonded config s.name)

/-- All GC candidates, in store (scan) order. -/
def candidateSections (config : Config) : List ConfigSection :=
  config.sections.filter (candFilter config)

/-- The names of all GC candidates, in scan order. -/
def candidateNames (config : Config) : List String :=
  (candidateSections config).map (fun s => s.name)

/-- Spec-level statement of the GC policy: when the unbounded candidate count
exceeds `CACHE_MAX * 2`, exactly the sections whose names are among the first
`CACHE_MAX` candidate names are dropped; otherwise the store is untouched. -/
def gcPolicy (config : Config) : Config :=
  if (candidateNames config).length > CACHE_MAX * 2 then
    ⟨config.sections.filter
      (fun s => decide (¬ s.name ∈ (candidateNames config).take CACHE_MAX))⟩
  else config

/-- A hardware-address-shaped name for index `i`, distinct for `i < 65536`. -/
def mkCandName (i : Nat) : String :=
  ⟨[hexChar (i / 4096 % 16), hexChar (i / 256 % 16), ':',
    hexChar (i / 16 % 16), hexChar (i % 16), ':',
    '0', '0', ':', '0', '0', ':', '0', '0', ':', '0', '0']⟩

/-- A store of 513 non-bonded device sections: one more candidate than the
GC threshold `CACHE_MAX * 2 = 512`. -/
def cfg513 : Config :=
  ⟨(List.range 513).map (fun i => ⟨mkCandName i, []⟩)⟩

/-- The empty store. -/
def cfgEmpty : Config := ⟨[]⟩

/-- A store whose entry "K" holds the odd-length text "12a". -/
def cfg12a : Config := ⟨[⟨"S1", [("K", "12a")]⟩]⟩

/-- A store whose entry "K" holds the non-hex text "1g". -/
def cfg1g : Config := ⟨[⟨"S1", [("K", "1g")]⟩]⟩

/-- A store whose entry "K" holds the even-length non-hex text "gg". -/
def cfgGG : Config := ⟨[⟨"S1", [("K", "gg")]⟩]⟩

/-- A store whose entry "K" holds the text "01". -/
def cfg01 : Config := ⟨[⟨"S1", [("K", "01")]⟩]⟩

/-- A store whose entry "K" holds the text "2a". -/
def cfg2a : Config := ⟨[⟨"S1", [("K", "2a")]⟩]⟩

/-- A store whose entry "K" holds the text "hello". -/
def cfgHello : Config := ⟨[⟨"S1", [("K", "hello")]⟩]⟩

/-- A bonded device section (it holds a "LinkKey" entry). -/
def sBonded : ConfigSection := ⟨"aa:bb:cc:dd:ee:ff", [("LinkKey", "00")]⟩

/-- A store with a single bonded device section. -/
def cfgBonded : Config := ⟨[sBonded]⟩

/-- A store with a single non-bonded device section. -/
def cfgOneCand : Config := ⟨[⟨"aa:bb:cc:dd:ee:ff", []⟩]⟩

/-! ## Store lemmas -/

theorem entryGet_setEntry (es : List (String × String)) (key v : String) :
    entryGet (setEntry es key v) key = some v := by
  induction es with
  | nil => rw [setEntry, entryGet, if_pos rfl]
  | cons e rest ih =>
      by_cases h : e.1 = key
      · rw [setEntry, if_pos h, entryGet, if_pos rfl]
      · rw [setEntry, if_neg h, entryGet, if_neg h, ih]

theorem getInList_setSection (l : List ConfigSection) (sec key v : String) :
    (match sectionFind (setSection l sec key v) sec with
     | none => none
     | some s => entryGet s.entries key) = some v := by
  induction l with
  | nil => simp [setSection, sectionFind, entryGet]
  | cons s rest ih =>
      by_cases h : s.name = sec
      · simp [setSection, h, sectionFind, entryGet_setEntry]
      · simp [setSection, h, sectionFind, ih]

theorem get_after_set (config : Config) (sec key v : String) :
    config_get_string (config_set_string config sec key v) sec key = some v := by
  have := getInList_setSection config.sections sec key v
  simpa [config_get_string, config_set_string] using this

theorem sectionFind_mem (l : List ConfigSection) (sec : String) (s : ConfigSection)
    (h : sectionFind l sec = some s) : s ∈ l := by
  induction l with
  | nil => simp [sectionFind] at h
  | cons t rest ih =>
      by_cases ht : t.name = sec
      · simp [sectionFind, ht] at h
        exact h ▸ List.mem_cons_self t rest
      · simp [sectionFind, ht] at h
        exact List.mem_cons_of_mem t (ih h)

theorem sectionFind_of_mem (l : List ConfigSection)
    (h : (l.map (fun s => s.name)).Nodup) (s : ConfigSection) (hs : s ∈ l) :
    sectionFind l s.name = some s := by
  induction l with
  | nil => cases hs
  | cons t rest ih =>
      simp only [List.map_cons, List.nodup_cons] at h
      rcases List.mem_cons.mp hs with h1 | h1
      · subst h1; simp [sectionFind]
      · have hne : ¬ t.name = s.name := by
          intro he
          exact h.1 (he ▸ List.mem_map_of_mem (fun x => x.name) h1)
        simp [sectionFind, hne, ih h.2 h1]

theorem sectionName_inj (l : List ConfigSection)
    (h : (l.map (fun s => s.name)).Nodup) (a b : ConfigSection)
    (ha : a ∈ l) (hb : b ∈ l) (hn : a.name = b.name) : a = b := by
  have h1 := sectionFind_of_mem l h a ha
  have h2 := sectionFind_of_mem l h b hb
  rw [hn, h2] at h1
  exact (Option.some.inj h1).symm

/-! ## Claim theorems: store interface -/

/-- C9: every public operation taking the `UNUSED_ATTR` leading section
argument behaves identically for any two values of that argument; the second
argument is what is used as the section name. -/
theorem leading_section_arg_ignored :
    (∀ (s1 s2 key : String) (config : Config),
      btif_config_has_key s1 key config = btif_config_has_key s2 key config) ∧
    (∀ (s1 s2 key name : String) (config : Config),
      btif_config_exist s1 key name config = btif_config_exist s2 key name config) ∧
    (∀ (s1 s2 key name : String) (v0 : Int) (config : Config),
      btif_config_get_int s1 key name v0 config = btif_config_get_int s2 key name v0 config) ∧
    (∀ (s1 s2 key name : String) (v : Int) (config : Config),
      btif_config_set_int s1 key name v config = btif_config_set_int s2 key name v config) ∧
    (∀ (s1 s2 key name buf0 : String) (cap : Nat) (config : Config),
      btif_config_get_str s1 key name buf0 cap config =
        btif_config_get_str s2 key name buf0 cap config) ∧
    (∀ (s1 s2 key name v : String) (config : Config),
      btif_config_set_str s1 key name v config = btif_config_set_str s2 key name v config) ∧
    (∀ (s1 s2 key name : String) (cap : Nat) (config : Config),
      btif_config_get_bin s1 key name cap config = btif_config_get_bin s2 key name cap config) ∧
    (∀ (s1 s2 key name : String) (v : List Nat) (config : Config),
      btif_config_set_bin s1 key name v config = btif_config_set_bin s2 key name v config) ∧
    (∀ (s1 s2 key name : String) (config : Config),
      btif_config_get_bin_length s1 key name config =
        btif_config_get_bin_length s2 key name config) ∧
    (∀ (s1 s2 key name : String) (config : Config),
      btif_config_remove s1 key name config = btif_config_remove s2 key name config) :=
  ⟨fun _ _ _ _ => rfl, fun _ _ _ _ _ => rfl, fun _ _ _ _ _ _ => rfl,
   fun _ _ _ _ _ _ => rfl, fun _ _ _ _ _ _ _ => rfl, fun _ _ _ _ _ _ => rfl,
   fun _ _ _ _ _ _ => rfl, fun _ _ _ _ _ _ => rfl, fun _ _ _ _ _ => rfl,
   fun _ _ _ _ _ => rfl⟩

/-- C2 (code bug): the round-trip law fails.  Writing the single byte 0x01
with `btif_config_set_bin` stores the text "10" (low nibble first), and
`btif_config_get_bin` decodes that text with `sscanf %02hhx` (high nibble
first), returning 0x10 = 16 instead of the written 0x01. -/
theorem set_get_bin_nibble_swapped :
    btif_config_get_bin "S" "S1" "K" 1
        (btif_config_set_bin "S" "S1" "K" [1] cfgEmpty).2 = some [16] ∧
    ¬ ([16] : List Nat) = [1] := by decide

/-- C5: `btif_config_get_bin` fails exactly when the entry is absent, the
stored text has odd length, the text contains a non-hex character, or the
caller's capacity is below half the text length; in particular the stored
texts "12a" and "1g" both yield failure. -/
theorem get_bin_failure_conditions :
    (∀ (secArg key name : String) (cap : Nat) (config : Config),
      btif_config_get_bin secArg key name cap config = none ↔
        (config_get_string config key name = none ∨
          ∃ s, config_get_string config key name = some s ∧
            (s.data.length % 2 ≠ 0 ∨ (∃ c ∈ s.data, isxdigit c = false) ∨
              cap < s.data.length / 2))) ∧
    btif_config_get_bin "S" "S1" "K" 100 cfg12a = none ∧
    btif_config_get_bin "S" "S1" "K" 100 cfg1g = none := by
  refine ⟨?_, by decide, by decide⟩
  intro secArg key name cap config
  unfold btif_config_get_bin
  cases hg : config_get_string config key name with
  | none => simp [hg]
  | some s =>
      simp only [hg]
      by_cases h1 : s.data.length % 2 ≠ 0 ∨ cap < s.data.length / 2
      · rw [if_pos h1]
        constructor
        · intro _
          exact Or.inr ⟨s, rfl, by tauto⟩
        · intro _; rfl
      · rw [if_neg h1]
        push_neg at h1
        obtain ⟨heven, hcap⟩ := h1
        by_cases h2 : s.data.all isxdigit = true
        · simp only [h2, if_true]
          constructor
          · intro hcontra; cases hcontra
          · rintro (hnone | ⟨s2, hs2, hbad⟩)
            · cases hnone
            · have hss : s2 = s := (Option.some.inj hs2).symm
              subst hss
              rcases hbad with hodd | ⟨c, hc, hcx⟩ | hcaplt
              · exact absurd heven hodd
              · have := List.all_eq_true.mp h2 c hc
                rw [hcx] at this; cases this
              · omega
        · have h2f : s.data.all isxdigit = false := by
            cases hv : s.data.all isxdigit with
            | true => exact absurd hv h2
            | false => rfl
          simp only [h2f, if_false]
          constructor
          · intro _
            refine Or.inr ⟨s, rfl, Or.inr (Or.inl ?_)⟩
            have hnall : ¬ ∀ c ∈ s.data, isxdigit c = true := fun hall =>
              h2 (List.all_eq_true.mpr hall)
            push_neg at hnall
            obtain ⟨c, hc, hcx⟩ := hnall
            refine ⟨c, hc, ?_⟩
            cases hv : isxdigit c with
            | true => exact absurd hv hcx
            | false => rfl
          · intro _; rfl

/-- C6 counterexample: the stored text "gg" is malformed (non-hex), yet
`btif_config_get_bin_length` returns 1, not the 0 the claim requires —
the source checks only the length's parity, never the characters. -/
theorem get_bin_length_nonhex_cex :
    btif_config_get_bin_length "S" "S1" "K" cfgGG = 1 ∧
    ¬ btif_config_get_bin_length "S" "S1" "K" cfgGG = 0 := by decide

/-- C6 as amended: `btif_config_get_bin_length` returns 0 when the entry is
absent or the stored text has odd length; for present even-length text it
returns half the text's length even when the text is not valid hex. -/
theorem get_bin_length_characterization (secArg key name : String) (config : Config) :
    (config_get_string config key name = none →
      btif_config_get_bin_length secArg key name config = 0) ∧
    (∀ s, config_get_string config key name = some s →
      btif_config_get_bin_length secArg key name config =
        if s.data.length % 2 ≠ 0 then 0 else s.data.length / 2) := by
  constructor
  · intro h; simp [btif_config_get_bin_length, h]
  · intro s h; simp only [btif_config_get_bin_length, h]

theorem get_bin_length_characterization_witness :
    config_get_string cfgGG "S1" "K" = some "gg" ∧
    btif_config_get_bin_length "X" "S1" "K" cfgGG =
      if ("gg" : String).data.length % 2 ≠ 0 then 0
      else ("gg" : String).data.length / 2 :=
  ⟨by decide, (get_bin_length_characterization "X" "S1" "K" cfgGG).2 "gg" (by decide)⟩

/-- C10: when the stored string's length is at least the caller's capacity
`cap ≥ 1`, `btif_config_get_str` still succeeds, the buffer receives the
first `cap - 1` characters (NUL-terminated by `strlcpy`), and `*length` is
set to the truncated length `cap - 1`. -/
theorem get_str_truncation (secArg key name buf0 : String) (cap : Nat)
    (config : Config) (stored : String)
    (hfound : config_get_string config key name = some stored)
    (hcap : 1 ≤ cap) (hlen : cap ≤ stored.data.length) :
    btif_config_get_str secArg key name buf0 cap config =
      some (⟨stored.data.take (cap - 1)⟩, cap - 1) := by
  unfold btif_config_get_str
  simp only [hfound]
  have hne : ¬ cap = 0 := by omega
  simp only [strlcpyBuf, if_neg hne]
  have hl : (String.mk (stored.data.take (cap - 1))).length = cap - 1 := by
    show (stored.data.take (cap - 1)).length = cap - 1
    rw [List.length_take]
    omega
  rw [hl]

theorem get_str_truncation_witness :
    (config_get_string cfgHello "S1" "K" = some "hello" ∧ 1 ≤ 3 ∧
      3 ≤ ("hello" : String).data.length) ∧
    btif_config_get_str "X" "S1" "K" "" 3 cfgHello =
      some (⟨("hello" : String).data.take 2⟩, 2) :=
  ⟨⟨by decide, by decide, by decide⟩,
   get_str_truncation "X" "S1" "K" "" 3 cfgHello "hello" (by decide) (by decide) (by decide)⟩

/-! ## Garbage-collection lemmas -/

theorem gcFold (config : Config) (l : List ConfigSection) :
    ∀ (ks : List String) (n : Nat), ks.length ≤ CACHE_MAX →
      l.foldl (gcStep config) (ks, n) =
        (ks ++ ((l.filter (candFilter config)).map (fun s => s.name)).take
            (CACHE_MAX - ks.length),
         n + ((l.filter (candFilter config)).map (fun s => s.name)).length) := by
  induction l with
  | nil => intro ks n _; simp
  | cons s rest ih =>
      intro ks n h
      rw [List.foldl_cons]
      by_cases hb : str_is_bdaddr s.name = true
      · by_cases hk : sectionIsBonded config s.name = true
        · have hstep : gcStep config (ks, n) s = (ks, n) := by
            simp [gcStep, hb, hk]
          have hf : candFilter config s = false := by
            simp [candFilter, hb, hk]
          have hfc : (s :: rest).filter (candFilter config) =
              rest.filter (candFilter config) := by
            simp [List.filter_cons, hf]
          rw [hstep, ih ks n h, hfc]
        · have hf : candFilter config s = true := by
            simp [candFilter, hb, hk]
          have hfc : (s :: rest).filter (candFilter config) =
              s :: rest.filter (candFilter config) := by
            simp [List.filter_cons, hf]
          by_cases hlen : ks.length < CACHE_MAX
          · have hstep : gcStep config (ks, n) s = (ks ++ [s.name], n + 1) := by
              simp [gcStep, hb, hk, hlen]
            rw [hstep, ih (ks ++ [s.name]) (n + 1) (by simp; omega), hfc]
            simp only [List.map_cons, List.length_cons, List.length_append,
              List.length_singleton, Prod.mk.injEq]
            have harith : CACHE_MAX - ks.length = (CACHE_MAX - (ks.length + 1)) + 1 := by
              omega
            rw [harith, List.take_succ_cons]
            constructor
            · rw [List.append_assoc]; rfl
            · omega
          · have hks : ks.length = CACHE_MAX := le_antisymm h (not_lt.mp hlen)
            have hstep : gcStep config (ks, n) s = (ks, n + 1) := by
              simp [gcStep, hb, hk, hlen]
            rw [hstep, ih ks (n + 1) h, hfc]
            simp only [List.map_cons, List.length_cons, hks, Nat.sub_self,
              List.take_zero, List.append_nil, Prod.mk.injEq]
            exact ⟨by trivial, by omega⟩
      · have hstep : gcStep config (ks, n) s = (ks, n) := by
          simp [gcStep, hb]
        have hf : candFilter config s = false := by
          simp [candFilter, hb]
        have hfc : (s :: rest).filter (candFilter config) =
            rest.filter (candFilter config) := by
          simp [List.filter_cons, hf]
        rw [hstep, ih ks n h, hfc]

theorem gcScan_eq (config : Config) :
    gcScan config =
      ((candidateNames config).take CACHE_MAX, (candidateNames config).length) := by
  have h := gcFold config config.sections [] 0 (by simp)
  simpa [gcScan, candidateNames, candidateSections] using h

theorem removeSectionFirst_eq_filter (l : List ConfigSection) (k : String)
    (h : (l.map (fun s => s.name)).Nodup) :
    removeSectionFirst l k = l.filter (fun s => decide (¬ s.name = k)) := by
  induction l with
  | nil => rfl
  | cons s rest ih =>
      simp only [List.map_cons, List.nodup_cons] at h
      by_cases hs : s.name = k
      · have hall : ∀ t ∈ rest, decide (¬ t.name = k) = true := by
          intro t ht
          simp only [decide_eq_true_eq]
          intro he
          have hmem : t.name ∈ rest.map (fun x => x.name) :=
            List.mem_map_of_mem (fun x => x.name) ht
          rw [he, ← hs] at hmem
          exact h.1 hmem
        have hps : decide (¬ s.name = k) = false := by simp [hs]
        rw [removeSectionFirst, if_pos hs, List.filter_cons]
        simp only [hps, Bool.false_eq_true, if_false]
        exact (List.filter_eq_self.mpr hall).symm
      · have hps : decide (¬ s.name = k) = true := by simp [hs]
        rw [removeSectionFirst, if_neg hs, List.filter_cons]
        simp only [hps, if_true]
        rw [ih h.2]

theorem removeTracked_sections (config : Config) (keys : List String)
    (h : (config.sections.map (fun s => s.name)).Nodup) :
    (removeTracked config keys).sections =
      config.sections.filter (fun s => decide (¬ s.name ∈ keys)) := by
  induction keys with
  | nil =>
      show config.sections = _
      refine (List.filter_eq_self.mpr ?_).symm
      intro a _
      simp
  | cons k ks ih =>
      show removeSectionFirst (removeTracked config ks).sections k = _
      rw [ih]
      have hsub : List.Sublist
          ((config.sections.filter (fun s => decide (¬ s.name ∈ ks))).map
            (fun s => s.name))
          (config.sections.map (fun s => s.name)) :=
        (List.filter_sublist _).map _
      have hnd := h.sublist hsub
      rw [removeSectionFirst_eq_filter _ _ hnd, List.filter_filter]
      apply List.filter_congr
      intro s _
      by_cases h1 : s.name = k <;> by_cases h2 : s.name ∈ ks <;> simp [h1, h2]

theorem timerStore_eq (config : Config)
    (h : (config.sections.map (fun s => s.name)).Nodup) :
    timerStore config = gcPolicy config := by
  unfold timerStore gcPolicy
  rw [gcScan_eq]
  by_cases hc : (candidateNames config).length > CACHE_MAX * 2
  · rw [if_pos hc, if_pos hc]
    have hsec := removeTracked_sections config ((candidateNames config).take CACHE_MAX) h
    calc removeTracked config ((candidateNames config).take CACHE_MAX)
        = ⟨(removeTracked config ((candidateNames config).take CACHE_MAX)).sections⟩ := rfl
      _ = _ := by rw [hsec]
  · rw [if_neg hc, if_neg hc]

theorem timer_save_image (config : Config)
    (h : (config.sections.map (fun s => s.name)).Nodup) :
    (timer_config_save config).2 = gcPolicy config :=
  timerStore_eq config h

/-! ## The 513-candidate store -/

theorem hexVal_hexChar (n : Nat) (h : n < 16) : hexVal (hexChar n) = n := by
  interval_cases n <;> decide

theorem isxdigit_hexChar_mod (m : Nat) : isxdigit (hexChar (m % 16)) = true := by
  generalize hk : m % 16 = k
  have hk16 : k < 16 := by omega
  interval_cases k <;> decide

theorem str_is_bdaddr_mkCandName (i : Nat) : str_is_bdaddr (mkCandName i) = true := by
  have h1 := isxdigit_hexChar_mod (i / 4096)
  have h2 := isxdigit_hexChar_mod (i / 256)
  have h3 := isxdigit_hexChar_mod (i / 16)
  have h4 := isxdigit_hexChar_mod i
  have h5 : isxdigit '0' = true := by decide
  simp [str_is_bdaddr, mkCandName, isBdAddrChars, h1, h2, h3, h4, h5]

theorem mkCandName_inj (i j : Nat) (hi : i < 65536) (hj : j < 65536)
    (h : mkCandName i = mkCandName j) : i = j := by
  have hd := congrArg String.data h
  simp only [mkCandName] at hd
  simp only [List.cons.injEq] at hd
  obtain ⟨h1, h2, -, h3, h4, -⟩ := hd
  have e1 : i / 4096 % 16 = j / 4096 % 16 := by
    have := congrArg hexVal h1
    rwa [hexVal_hexChar _ (by omega), hexVal_hexChar _ (by omega)] at this
  have e2 : i / 256 % 16 = j / 256 % 16 := by
    have := congrArg hexVal h2
    rwa [hexVal_hexChar _ (by omega), hexVal_hexChar _ (by omega)] at this
  have e3 : i / 16 % 16 = j / 16 % 16 := by
    have := congrArg hexVal h3
    rwa [hexVal_hexChar _ (by omega), hexVal_hexChar _ (by omega)] at this
  have e4 : i % 16 = j % 16 := by
    have := congrArg hexVal h4
    rwa [hexVal_hexChar _ (by omega), hexVal_hexChar _ (by omega)] at this
  omega

theorem sectionNames_cfg513 :
    cfg513.sections.map (fun s => s.name) = (List.range 513).map mkCandName := by
  have h : cfg513.sections =
      (List.range 513).map (fun i => (⟨mkCandName i, []⟩ : ConfigSection)) := rfl
  rw [h, List.map_map]
  exact List.map_congr_left (fun a _ => rfl)

theorem nodup_cfg513 : (cfg513.sections.map (fun s => s.name)).Nodup := by
  rw [sectionNames_cfg513]
  exact List.Nodup.map_on
    (fun x hx y hy hxy =>
      mkCandName_inj x y (by rw [List.mem_range] at hx; omega)
        (by rw [List.mem_range] at hy; omega) hxy)
    (List.nodup_range 513)

theorem entries_cfg513 (s : ConfigSection) (hs : s ∈ cfg513.sections) :
    s.entries = [] := by
  obtain ⟨i, _, rfl⟩ := List.mem_map.mp hs
  rfl

theorem notBonded_cfg513 (n : String) : sectionIsBonded cfg513 n = false := by
  have hk : ∀ k, config_has_key cfg513 n k = false := by
    intro k
    unfold config_has_key
    cases hf : sectionFind cfg513.sections n with
    | none => rfl
    | some s =>
        have hmem := sectionFind_mem _ _ _ hf
        have he := entries_cfg513 s hmem
        simp [he, entryGet]
  unfold sectionIsBonded
  rw [List.any_eq_false]
  intro k _
  simp [hk k]

theorem candidates_cfg513 : candidateSections cfg513 = cfg513.sections := by
  apply List.filter_eq_self.mpr
  intro s hs
  obtain ⟨i, _, rfl⟩ := List.mem_map.mp hs
  show candFilter cfg513 ⟨mkCandName i, []⟩ = true
  unfold candFilter
  rw [notBonded_cfg513]
  simp [str_is_bdaddr_mkCandName]

theorem candidateNames_cfg513 :
    candidateNames cfg513 = (List.range 513).map mkCandName := by
  unfold candidateNames
  rw [candidates_cfg513, sectionNames_cfg513]

/-! ## Claim theorems: garbage collection and flushing -/

/-- C1: the garbage-collection step never removes a bonded device section
(one holding at least one of the credential keys LinkKey, LE_KEY_PENC,
LE_KEY_PID, LE_KEY_PCSRK, LE_KEY_LENC, LE_KEY_LCSRK) and never removes a
non-device section (name not matching the hardware-address pattern), for
every store with unique section names and every candidate count. -/
theorem gc_preserves_protected_sections (config : Config)
    (hnodup : (config.sections.map (fun s => s.name)).Nodup)
    (s : ConfigSection) (hs : s ∈ config.sections)
    (hkeep : (∃ k ∈ bondedKeys, (entryGet s.entries k).isSome = true) ∨
      str_is_bdaddr s.name = false) :
    s ∈ (timer_config_save config).1.sections := by
  have h1 : (timer_config_save config).1 = timerStore config := rfl
  rw [h1, timerStore_eq config hnodup]
  unfold gcPolicy
  by_cases hc : (candidateNames config).length > CACHE_MAX * 2
  · rw [if_pos hc]
    refine List.mem_filter.mpr ⟨hs, ?_⟩
    simp only [decide_eq_true_eq]
    intro hmem
    have hmem2 : s.name ∈ candidateNames config := List.take_subset _ _ hmem
    obtain ⟨s2, hs2, hname⟩ := List.mem_map.mp hmem2
    have hs2mem : s2 ∈ config.sections := List.mem_of_mem_filter hs2
    have heq : s2 = s := sectionName_inj config.sections hnodup s2 s hs2mem hs hname
    subst heq
    have hcf : candFilter config s2 = true := List.of_mem_filter hs2
    rcases hkeep with ⟨k, hkmem, hksome⟩ | hnb
    · have hfind : sectionFind config.sections s2.name = some s2 :=
        sectionFind_of_mem config.sections hnodup s2 hs
      have hhk : config_has_key config s2.name k = true := by
        unfold config_has_key
        simp only [hfind]
        exact hksome
      have hb : sectionIsBonded config s2.name = true :=
        List.any_eq_true.mpr ⟨k, hkmem, hhk⟩
      simp [candFilter, hb] at hcf
    · simp [candFilter, hnb] at hcf
  · rw [if_neg hc]; exact hs

theorem gc_preserves_protected_sections_witness :
    ((cfgBonded.sections.map (fun s => s.name)).Nodup ∧
      sBonded ∈ cfgBonded.sections ∧
      ((∃ k ∈ bondedKeys, (entryGet sBonded.entries k).isSome = true) ∨
        str_is_bdaddr sBonded.name = false)) ∧
    sBonded ∈ (timer_config_save cfgBonded).1.sections :=
  ⟨⟨by decide, by decide, by decide⟩,
   gc_preserves_protected_sections cfgBonded (by decide) sBonded (by decide) (by decide)⟩

/-- C3: if the unbounded total of non-bonded device sections exceeds
`CACHE_MAX * 2 = 512`, every tracked candidate (the first up-to-256
candidates in scan order) is removed from the store; if the total is at most
512, no section is removed at all. -/
theorem gc_threshold_eviction (config : Config)
    (hnodup : (config.sections.map (fun s => s.name)).Nodup) :
    ((candidateSections config).length > CACHE_MAX * 2 →
      ∀ s ∈ (candidateSections config).take CACHE_MAX,
        ¬ s ∈ (timer_config_save config).1.sections) ∧
    ((candidateSections config).length ≤ CACHE_MAX * 2 →
      (timer_config_save config).1 = config) := by
  have h1 : (timer_config_save config).1 = timerStore config := rfl
  have hlen : (candidateNames config).length = (candidateSections config).length :=
    List.length_map _ _
  constructor
  · intro hgt s hs hmem
    rw [h1, timerStore_eq config hnodup] at hmem
    unfold gcPolicy at hmem
    rw [if_pos (by rw [hlen]; exact hgt)] at hmem
    have hpred := (List.mem_filter.mp hmem).2
    simp only [decide_eq_true_eq] at hpred
    apply hpred
    unfold candidateNames
    rw [← List.map_take]
    exact List.mem_map_of_mem _ hs
  · intro hle
    rw [h1, timerStore_eq config hnodup]
    unfold gcPolicy
    rw [if_neg (by rw [hlen]; omega)]

theorem gc_threshold_eviction_witness :
    (cfgOneCand.sections.map (fun s => s.name)).Nodup ∧
    (((candidateSections cfgOneCand).length > CACHE_MAX * 2 →
        ∀ s ∈ (candidateSections cfgOneCand).take CACHE_MAX,
          ¬ s ∈ (timer_config_save cfgOneCand).1.sections) ∧
      ((candidateSections cfgOneCand).length ≤ CACHE_MAX * 2 →
        (timer_config_save cfgOneCand).1 = cfgOneCand)) :=
  ⟨by decide, gc_threshold_eviction cfgOneCand (by decide)⟩

theorem gcPolicy_removes_tracked_member (config : Config) (s0 : ConfigSection)
    (hmem : s0 ∈ config.sections)
    (hname : s0.name ∈ (candidateNames config).take CACHE_MAX)
    (hgt : (candidateNames config).length > CACHE_MAX * 2) :
    ¬ config = gcPolicy config := by
  intro h
  unfold gcPolicy at h
  rw [if_pos hgt] at h
  have hsec := congrArg Config.sections h
  have hall := List.filter_eq_self.mp hsec.symm
  have hpred := hall _ hmem
  simp only [decide_eq_true_eq] at hpred
  exact hpred hname

/-- C7 counterexample: an explicit `btif_config_flush` does NOT run the
garbage-collection policy.  On a store of 513 GC candidates the settle-timer
callback removes 256 sections before serializing, while `btif_config_flush`
serializes all 513 unchanged, so the two serialized images differ. -/
theorem flush_skips_gc_cex :
    ¬ (btif_config_flush cfg513).2 = (timer_config_save cfg513).2 := by
  intro hclaim
  have hfl : (btif_config_flush cfg513).2 = cfg513 := rfl
  have hclaim2 : cfg513 = gcPolicy cfg513 :=
    (hfl.symm.trans hclaim).trans (timer_save_image cfg513 nodup_cfg513)
  have hlen : (candidateNames cfg513).length > CACHE_MAX * 2 := by
    rw [candidateNames_cfg513]
    simp only [List.length_map, List.length_range, CACHE_MAX]
    omega
  have hhead : (⟨mkCandName 0, ([] : List (String × String))⟩ : ConfigSection) ∈
      cfg513.sections :=
    List.mem_map_of_mem _ (List.mem_range.mpr (by omega))
  have htake : (⟨mkCandName 0, ([] : List (String × String))⟩ : ConfigSection).name ∈
      (candidateNames cfg513).take CACHE_MAX := by
    show mkCandName 0 ∈ (candidateNames cfg513).take CACHE_MAX
    rw [candidateNames_cfg513]
    have htk : (List.range 513).take CACHE_MAX = List.range 256 := by
      rw [List.take_range]
      norm_num [CACHE_MAX]
    rw [← List.map_take, htk]
    exact List.mem_map_of_mem _ (List.mem_range.mpr (by omega))
  exact gcPolicy_removes_tracked_member cfg513 _ hhead htake hlen hclaim2

/-- C7 as amended: only the settle-timer callback `timer_config_save` runs
the GC policy (once, before serializing, under the store lock); an explicit
`btif_config_flush` cancels any pending timer and serializes the store
exactly as it is, without running GC. -/
theorem flush_vs_timer_gc (config : Config)
    (h : (config.sections.map (fun s => s.name)).Nodup) :
    (btif_config_flush config).1 = config ∧ (btif_config_flush config).2 = config ∧
    (timer_config_save config).1 = gcPolicy config ∧
    (timer_config_save config).2 = gcPolicy config :=
  ⟨rfl, rfl, timerStore_eq config h, timerStore_eq config h⟩

theorem flush_vs_timer_gc_witness :
    (cfgOneCand.sections.map (fun s => s.name)).Nodup ∧
    ((btif_config_flush cfgOneCand).1 = cfgOneCand ∧
      (btif_config_flush cfgOneCand).2 = cfgOneCand ∧
      (timer_config_save cfgOneCand).1 = gcPolicy cfgOneCand ∧
      (timer_config_save cfgOneCand).2 = gcPolicy cfgOneCand) :=
  ⟨by decide, flush_vs_timer_gc cfgOneCand (by decide)⟩

/-! ## Claim theorems: debounce scheduler and codec order -/

/-- C4: a `save()` while the settle timer is armed cancels and restarts it
with the full settle period, so the model keeps at most one outstanding
deadline; consequently saves each within one settle period of the previous
produce exactly one flush, and saves each spaced more than the settle period
apart produce one flush per save. -/
theorem debounce_flush_counts (ts : List Nat) :
    (¬ ts = [] →
      List.Chain' (fun a b => b ≤ a + CONFIG_SETTLE_PERIOD_MS) ts →
      debounceFlushCount ts = 1) ∧
    (List.Chain' (fun a b => a + CONFIG_SETTLE_PERIOD_MS < b) ts →
      debounceFlushCount ts = ts.length) := by
  induction ts with
  | nil => exact ⟨fun h => absurd rfl h, fun _ => rfl⟩
  | cons t rest ih =>
      cases rest with
      | nil => exact ⟨fun _ _ => rfl, fun _ => rfl⟩
      | cons t2 rest2 =>
          constructor
          · intro _ hch
            rw [List.chain'_cons] at hch
            have hcount := ih.1 (by simp) hch.2
            show (if t2 ≤ t + CONFIG_SETTLE_PERIOD_MS then 0 else 1) +
                debounceFlushCount (t2 :: rest2) = 1
            rw [if_pos hch.1, hcount]
          · intro hch
            rw [List.chain'_cons] at hch
            have h1 := hch.1
            have hcount := ih.2 hch.2
            show (if t2 ≤ t + CONFIG_SETTLE_PERIOD_MS then 0 else 1) +
                debounceFlushCount (t2 :: rest2) = (t :: t2 :: rest2).length
            rw [if_neg (by omega), hcount]
            simp only [List.length_cons]
            omega

theorem debounce_flush_counts_witness :
    ((¬ ([0, 1000, 2000] : List Nat) = []) ∧
      List.Chain' (fun a b => b ≤ a + CONFIG_SETTLE_PERIOD_MS) [0, 1000, 2000] ∧
      debounceFlushCount [0, 1000, 2000] = 1) ∧
    (List.Chain' (fun a b => a + CONFIG_SETTLE_PERIOD_MS < b) [0, 4000, 8000] ∧
      debounceFlushCount [0, 4000, 8000] = ([0, 4000, 8000] : List Nat).length ∧
      debounceFlushCount [0, 4000, 8000] = 3) :=
  ⟨⟨by decide, by norm_num [List.chain'_cons, List.chain'_singleton, CONFIG_SETTLE_PERIOD_MS],
    (debounce_flush_counts [0, 1000, 2000]).1 (by decide)
      (by norm_num [List.chain'_cons, List.chain'_singleton, CONFIG_SETTLE_PERIOD_MS])⟩,
   ⟨by norm_num [List.chain'_cons, List.chain'_singleton, CONFIG_SETTLE_PERIOD_MS],
    (debounce_flush_counts [0, 4000, 8000]).2
      (by norm_num [List.chain'_cons, List.chain'_singleton, CONFIG_SETTLE_PERIOD_MS]),
    by decide⟩⟩

/-- C8 counterexample: decode does NOT consume pairs in encode's nibble
order.  For the stored text "01", low-nibble-first consumption (the claim)
would give 0x10 = 16; the code's sscanf-based decode returns 0x01 = 1. -/
theorem decode_nibble_order_cex :
    btif_config_get_bin "S" "S1" "K" 1 cfg01 = some [1] ∧
    ¬ btif_config_get_bin "S" "S1" "K" 1 cfg01 = some [16] := by decide

/-- C8 as amended: for every byte, encode emits two lowercase hex digits
with the LOW nibble first and the high nibble second, while decode consumes
each digit pair in the standard positional order — high nibble from the
first digit, low nibble from the second — the reverse of encode's order. -/
theorem codec_nibble_order_mismatch :
    (∀ (b : Nat), b < 256 → ∀ (secArg key name : String) (config : Config),
      config_get_string (btif_config_set_bin secArg key name [b] config).2 key name =
        some ⟨[hexChar (b % 16), hexChar (b / 16 % 16)]⟩) ∧
    (∀ (c1 c2 : Char), isxdigit c1 = true → isxdigit c2 = true →
      ∀ (secArg key name : String) (config : Config),
        config_get_string config key name = some ⟨[c1, c2]⟩ →
        btif_config_get_bin secArg key name 1 config =
          some [16 * hexVal c1 + hexVal c2]) := by
  constructor
  · intro b _ secArg key name config
    have henc : encodeHex [b] = ⟨[hexChar (b % 16), hexChar (b / 16 % 16)]⟩ := by
      simp [encodeHex, encodeByte]
    have hset : (btif_config_set_bin secArg key name [b] config).2 =
        config_set_string config key name (encodeHex [b]) := rfl
    rw [hset, get_after_set, henc]
  · intro c1 c2 h1 h2 secArg key name config hstore
    unfold btif_config_get_bin
    simp only [hstore]
    have hc1 : ¬ (([c1, c2] : List Char).length % 2 ≠ 0 ∨
        1 < ([c1, c2] : List Char).length / 2) := by
      simp
    rw [if_neg hc1]
    have hall : ([c1, c2] : List Char).all isxdigit = true := by
      simp [List.all_cons, h1, h2]
    rw [if_pos hall]
    show some (decodeHexPairs [c1, c2]) = some [16 * hexVal c1 + hexVal c2]
    rfl

theorem codec_nibble_order_mismatch_witness :
    ((1 : Nat) < 256 ∧
      config_get_string (btif_config_set_bin "S" "S1" "K" [1] cfgEmpty).2 "S1" "K" =
        some ⟨[hexChar (1 % 16), hexChar (1 / 16 % 16)]⟩) ∧
    (isxdigit '2' = true ∧ isxdigit 'a' = true ∧
      config_get_string cfg2a "S1" "K" = some ⟨['2', 'a']⟩ ∧
      btif_config_get_bin "X" "S1" "K" 1 cfg2a = some [16 * hexVal '2' + hexVal 'a']) :=
  ⟨⟨by decide, codec_nibble_order_mismatch.1 1 (by decide) "S" "S1" "K" cfgEmpty⟩,
   ⟨by decide, by decide, by decide,
    codec_nibble_order_mismatch.2 '2' 'a' (by decide) (by decide) "X" "S1" "K" cfg2a
      (by decide)⟩⟩

end BtifConfig
